import Mathlib

/-!
Shallow embedding of the dual-store user synchronization engine of
`api-gateway-delicious-kitchen` (`src/services/userSyncService.ts` and
`src/interfaces/IUser.ts`).

The identity store (Firebase Auth) is modelled as a list of `Principal`
values keyed by `uid`, the document store (Firestore `users` collection)
as a list of `ProfileRecord` values keyed by `uid`.  Server-assigned
timestamps (`createdAt` / `updatedAt`, written with
`FieldValue.serverTimestamp()`) are opaque store-assigned values that no
specified property observes, so they are not part of the record model.
Passwords are write-only to the identity provider and likewise not
observable.  Store failures are injected through explicit fault
parameters: each fault field is `some msg` when the corresponding store
call throws an error with message `msg`, and `none` when it succeeds.
-/

deriving instance DecidableEq for Except

namespace DeliciousKitchen

/-- Identity-store view of a user (Firebase Auth `UserRecord`):
`displayName`, `email` and the `role` custom claim may be absent
(`undefined` in the source), `disabled` is a boolean. -/
structure Principal where
  uid : String
  displayName : Option String
  email : Option String
  roleClaim : Option String
  disabled : Bool
  deriving Repr, DecidableEq

/-- Document-store view of a user (the `IUser` document of the Firestore
`users` collection), minus the two store-assigned timestamps. -/
structure ProfileRecord where
  uid : String
  email : String
  name : String
  role : String
  status : String
  deriving Repr, DecidableEq

/-- The identity-store population, in `listUsers` order. -/
abbrev AuthStore := List Principal

/-- The document-store collection, in scan order. -/
abbrev DocStore := List ProfileRecord

/-- Combined state of both stores. -/
structure SyncState where
  auth : AuthStore
  fs : DocStore
  deriving Repr, DecidableEq

/-- Embeds `admin.auth().getUser(uid)`: the principal with the given uid. -/
def findAuth (auth : AuthStore) (uid : String) : Option Principal :=
  auth.find? (fun p => p.uid = uid)

/-- Embeds `db.collection(USERS_COLLECTION).doc(uid).get()`: the document with
the given uid, when it exists. -/
def findDoc (fs : DocStore) (uid : String) : Option ProfileRecord :=
  fs.find? (fun r => r.uid = uid)

/-- JavaScript `a || b` for an optional string `a`: both `undefined` and
the empty string are falsy and fall through to the default. -/
def orElseStr (o : Option String) (d : String) : String :=
  match o with
  | some s => if s = "" then d else s
  | none => d

/-- JavaScript `String.prototype.toUpperCase()`, applied character by
character (all strings this system compares are ASCII). -/
def toUpperStr (s : String) : String := ⟨s.data.map Char.toUpper⟩

/-- The closed role vocabulary (`validRoles` in `normalizeRole`). -/
def validRoles : List String := ["ADMIN", "KITCHEN", "WAITER"]

/-- The `normalizeRole` function of `src/interfaces/IUser.ts`: uppercase the input
and accept it only when it is one of the three valid roles. -/
def normalizeRole (role : String) : Option String :=
  let normalized := toUpperStr role
  if validRoles.contains normalized then some normalized else none

/-! ### Reconciliation auditor (`UserSyncService.auditSync`) -/

/-- One element of `missingInFirestore` / `missingInAuth`. -/
structure MissingEntry where
  uid : String
  email : Option String
  name : Option String
  deriving Repr, DecidableEq

/-- One field-level inconsistency entry. `authValue` and
`firestoreValue` are the values pushed by the source (strings, or
`none` for `undefined`). -/
structure Inconsistency where
  uid : String
  field : String
  authValue : Option String
  firestoreValue : Option String
  deriving Repr, DecidableEq

/-- The `summary` block of `ISyncAuditResult`. -/
structure AuditSummary where
  totalInAuth : Nat
  totalInFirestore : Nat
  missingInFirestoreCount : Nat
  missingInAuthCount : Nat
  inconsistenciesCount : Nat
  isConsistent : Bool
  deriving Repr, DecidableEq

/-- The `ISyncAuditResult` report. -/
structure ISyncAuditResult where
  missingInFirestore : List MissingEntry
  missingInAuth : List MissingEntry
  inconsistencies : List Inconsistency
  summary : AuditSummary
  deriving Repr, DecidableEq

/-- First loop of `auditSync`: identity-store users with no document. -/
def auditMissingInFirestore (st : SyncState) : List MissingEntry :=
  st.auth.filterMap (fun p =>
    if (findDoc st.fs p.uid).isSome then none
    else some { uid := p.uid, email := p.email, name := p.displayName })

/-- Second loop of `auditSync`: documents with no identity-store user. -/
def auditMissingInAuth (st : SyncState) : List MissingEntry :=
  st.fs.filterMap (fun r =>
    if (findAuth st.auth r.uid).isSome then none
    else some { uid := r.uid, email := some r.email, name := some r.name })

/-- Field comparisons of the third loop of `auditSync`, for one uid
present in both stores: `displayName` vs `name` exactly, role claims
case-insensitively (raw values reported), `disabled` vs
`status === "inactive"` (auth side rendered as active/inactive). -/
def inconsistenciesFor (p : Principal) (r : ProfileRecord) : List Inconsistency :=
  (if p.displayName ≠ some r.name then
    [{ uid := p.uid, field := "name", authValue := p.displayName,
       firestoreValue := some r.name }]
   else []) ++
  (if p.roleClaim.map toUpperStr ≠ some (toUpperStr r.role) then
    [{ uid := p.uid, field := "role", authValue := p.roleClaim,
       firestoreValue := some r.role }]
   else []) ++
  (if (p.disabled != (r.status == "inactive")) then
    [{ uid := p.uid, field := "status",
       authValue := some (if p.disabled then "inactive" else "active"),
       firestoreValue := some r.status }]
   else [])

/-- Third loop of `auditSync`: all inconsistency entries. -/
def auditInconsistencies (st : SyncState) : List Inconsistency :=
  st.auth.flatMap (fun p =>
    match findDoc st.fs p.uid with
    | some r => inconsistenciesFor p r
    | none => [])

/-- Embeds `UserSyncService.auditSync`: a pure, read-only report over both
stores.  The `listUsers(1000)` page bound is modelled as the full
population (one page). -/
def auditSync (st : SyncState) : ISyncAuditResult :=
  let mif := auditMissingInFirestore st
  let mia := auditMissingInAuth st
  let inc := auditInconsistencies st
  { missingInFirestore := mif
    missingInAuth := mia
    inconsistencies := inc
    summary :=
      { totalInAuth := st.auth.length
        totalInFirestore := st.fs.length
        missingInFirestoreCount := mif.length
        missingInAuthCount := mia.length
        inconsistenciesCount := inc.length
        isConsistent := mif.length == 0 && mia.length == 0 && inc.length == 0 } }

/-! ### Sync engine (`UserSyncService.createUser` / `updateUser` /
`disableUser` / `enableUser`)

Each operation is parametrised by the outcomes of the store calls it
makes.  A fault field holds `some msg` when the corresponding call
throws (with error message `msg`) and `none` when it succeeds. -/

/-- The `ICreateUserData` argument object. -/
structure ICreateUserData where
  email : String
  password : String
  name : String
  role : String
  deriving Repr, DecidableEq

/-- The `IUpdateUserData` argument object (optional fields). -/
structure IUpdateUserData where
  name : Option String
  role : Option String
  deriving Repr, DecidableEq

/-- Fault model for the four store calls `createUser` makes:
`auth().createUser`, `auth().setCustomUserClaims`, the Firestore
`doc(...).set`, and the compensating `auth().deleteUser`. -/
structure CreateFaults where
  failCreate : Option String
  failSetClaims : Option String
  failDocSet : Option String
  failDelete : Option String
  deriving Repr, DecidableEq

/-- All store calls succeed. -/
def noCreateFaults : CreateFaults :=
  { failCreate := none, failSetClaims := none, failDocSet := none,
    failDelete := none }

/-- Fault model for `updateUser` / `disableUser` / `enableUser`: the
identity-store write (primary step), the document-store write
(secondary step), and the compensating identity-store write. -/
structure OpFaults where
  primary : Option String
  secondary : Option String
  rollback : Option String
  deriving Repr, DecidableEq

/-- All store calls succeed. -/
def noOpFaults : OpFaults :=
  { primary := none, secondary := none, rollback := none }

/-- Embeds `admin.auth().deleteUser(uid)`. -/
def removeAuth (auth : AuthStore) (uid : String) : AuthStore :=
  auth.filter (fun p => p.uid ≠ uid)

/-- Embeds `admin.auth().setCustomUserClaims` for the role claim. -/
def setRoleClaim (auth : AuthStore) (uid : String) (role : String) : AuthStore :=
  auth.map (fun p => if p.uid = uid then { p with roleClaim := some role } else p)

/-- Embeds the `admin.auth().updateUser` call that sets `disabled`. -/
def setDisabled (auth : AuthStore) (uid : String) (d : Bool) : AuthStore :=
  auth.map (fun p => if p.uid = uid then { p with disabled := d } else p)

/-- Firestore `doc(uid).update({ status })`. -/
def setStatus (fs : DocStore) (uid : String) (s : String) : DocStore :=
  fs.map (fun r => if r.uid = uid then { r with status := s } else r)

/-- JavaScript truthiness of an optional string argument (`if (name)`,
`if (role)`): absent and empty strings are falsy. -/
def truthy (o : Option String) : Option String :=
  match o with
  | some s => if s = "" then none else some s
  | none => none

/-- Embeds `UserSyncService.createUser`.  `newUid` is the store-assigned uid of
the freshly created principal.  The `catch` block deletes the principal
whenever one was created before the failure (`userRecord` non-null) and
re-raises the caught error; a failing delete is only logged. -/
def createUser (f : CreateFaults) (newUid : String) (st : SyncState)
    (data : ICreateUserData) : Except String ProfileRecord × SyncState :=
  match normalizeRole data.role with
  | none =>
    (.error s!"Rol invalido: {data.role}. Roles permitidos: ADMIN, KITCHEN", st)
  | some normalizedRole =>
    match f.failCreate with
    | some m => (.error m, st)
    | none =>
      let created : Principal :=
        { uid := newUid, displayName := some data.name, email := some data.email,
          roleClaim := none, disabled := false }
      let auth1 := st.auth ++ [created]
      match f.failSetClaims with
      | some m =>
        (.error m,
         { st with auth := if f.failDelete.isSome then auth1 else removeAuth auth1 newUid })
      | none =>
        let auth2 := setRoleClaim auth1 newUid normalizedRole
        match f.failDocSet with
        | some m =>
          (.error m,
           { st with auth := if f.failDelete.isSome then auth2 else removeAuth auth2 newUid })
        | none =>
          let userData : ProfileRecord :=
            { uid := newUid, email := data.email, name := data.name,
              role := normalizedRole, status := "active" }
          (.ok userData, { auth := auth2, fs := st.fs ++ [userData] })

/-- Step 1 of `updateUser`: apply the supplied fields to the
identity store (`updateUser({displayName})` and/or
`setCustomUserClaims({role})`). -/
def applyAuthUpdate (auth : AuthStore) (uid : String) (nameT : Option String)
    (normalizedRole : Option String) : AuthStore :=
  auth.map (fun p =>
    if p.uid = uid then
      { p with
        displayName := match nameT with | some n => some n | none => p.displayName
        roleClaim := match normalizedRole with | some nr => some nr | none => p.roleClaim }
    else p)

/-- The `catch` block of `updateUser`: restore a previous value only when
the corresponding field was being updated AND its previous value was
defined (`previousName !== undefined`). -/
def rollbackAuthUpdate (auth : AuthStore) (uid : String) (nameT : Option String)
    (normalizedRole : Option String) (previousName previousRole : Option String) :
    AuthStore :=
  auth.map (fun p =>
    if p.uid = uid then
      { p with
        displayName :=
          if nameT.isSome && previousName.isSome then previousName else p.displayName
        roleClaim :=
          if normalizedRole.isSome && previousRole.isSome then previousRole else p.roleClaim }
    else p)

/-- Body of `updateUser` after existence and role validation.  The two
identity-store writes of step 1 are modelled as one primary step. -/
def updateUserGo (f : OpFaults) (st : SyncState) (uid : String)
    (userRecord : Principal) (nameT : Option String)
    (normalizedRole : Option String) : Except String Unit × SyncState :=
  let previousName := userRecord.displayName
  let previousRole := userRecord.roleClaim
  match f.primary with
  | some m => (.error m, st)
  | none =>
    let auth1 := applyAuthUpdate st.auth uid nameT normalizedRole
    match f.secondary with
    | some m =>
      let auth2 :=
        if f.rollback.isSome then auth1
        else rollbackAuthUpdate auth1 uid nameT normalizedRole previousName previousRole
      (.error m, { st with auth := auth2 })
    | none =>
      match findDoc st.fs uid with
      | some _ =>
        let fs1 := st.fs.map (fun r =>
          if r.uid = uid then
            { r with
              name := match nameT with | some n => n | none => r.name
              role := match normalizedRole with | some nr => nr | none => r.role }
          else r)
        (.ok (), { auth := auth1, fs := fs1 })
      | none =>
        match findAuth auth1 uid with
        | some authUser =>
          let healed : ProfileRecord :=
            { uid := uid
              email := orElseStr authUser.email ""
              name :=
                match nameT with
                | some n => n
                | none => orElseStr authUser.displayName ""
              role :=
                match normalizedRole with
                | some nr => nr
                | none => orElseStr previousRole "KITCHEN"
              status := if authUser.disabled then "inactive" else "active" }
          (.ok (), { auth := auth1, fs := st.fs ++ [healed] })
        | none =>
          let auth2 :=
            if f.rollback.isSome then auth1
            else rollbackAuthUpdate auth1 uid nameT normalizedRole previousName previousRole
          (.error s!"Usuario con UID {uid} no encontrado en Auth",
           { st with auth := auth2 })

/-- Embeds `UserSyncService.updateUser`. -/
def updateUser (f : OpFaults) (st : SyncState) (uid : String)
    (data : IUpdateUserData) : Except String Unit × SyncState :=
  match findAuth st.auth uid with
  | none => (.error s!"Usuario con UID {uid} no encontrado en Auth", st)
  | some userRecord =>
    match truthy data.role with
    | some r =>
      match normalizeRole r with
      | none =>
        (.error s!"Rol invalido: {r}. Roles permitidos: ADMIN, KITCHEN, WAITER", st)
      | some nr => updateUserGo f st uid userRecord (truthy data.name) (some nr)
    | none => updateUserGo f st uid userRecord (truthy data.name) none

/-- Embeds `UserSyncService.disableUser`. -/
def disableUser (f : OpFaults) (st : SyncState) (uid : String) :
    Except String Unit × SyncState :=
  match findAuth st.auth uid with
  | none => (.error s!"Usuario con UID {uid} no encontrado", st)
  | some userRecord =>
    match f.primary with
    | some m => (.error m, st)
    | none =>
      let auth1 := setDisabled st.auth uid true
      match f.secondary with
      | some m =>
        let auth2 := if f.rollback.isSome then auth1 else setDisabled auth1 uid false
        (.error m, { st with auth := auth2 })
      | none =>
        match findDoc st.fs uid with
        | some _ => (.ok (), { auth := auth1, fs := setStatus st.fs uid "inactive" })
        | none =>
          let healed : ProfileRecord :=
            { uid := uid
              email := orElseStr userRecord.email ""
              name := orElseStr userRecord.displayName ""
              role := orElseStr userRecord.roleClaim "KITCHEN"
              status := "inactive" }
          (.ok (), { auth := auth1, fs := st.fs ++ [healed] })

/-- Embeds `UserSyncService.enableUser`. -/
def enableUser (f : OpFaults) (st : SyncState) (uid : String) :
    Except String Unit × SyncState :=
  match findAuth st.auth uid with
  | none => (.error s!"Usuario con UID {uid} no encontrado", st)
  | some userRecord =>
    match f.primary with
    | some m => (.error m, st)
    | none =>
      let auth1 := setDisabled st.auth uid false
      match f.secondary with
      | some m =>
        let auth2 := if f.rollback.isSome then auth1 else setDisabled auth1 uid true
        (.error m, { st with auth := auth2 })
      | none =>
        match findDoc st.fs uid with
        | some _ => (.ok (), { auth := auth1, fs := setStatus st.fs uid "active" })
        | none =>
          let healed : ProfileRecord :=
            { uid := uid
              email := orElseStr userRecord.email ""
              name := orElseStr userRecord.displayName ""
              role := orElseStr userRecord.roleClaim "KITCHEN"
              status := "active" }
          (.ok (), { auth := auth1, fs := st.fs ++ [healed] })

/-! ### Backfill migrator (`UserSyncService.migrateAuthToFirestore`) -/

/-- Per-uid fault model for the two store calls inside the migrator's
`try` block: the claim write-back and the document `set`. -/
structure MigrateFaults where
  claimFail : String → Option String
  setFail : String → Option String

/-- All migrator store calls succeed. -/
def noMigrateFaults : MigrateFaults :=
  { claimFail := fun _ => none, setFail := fun _ => none }

/-- The document written by one migration iteration for principal `p`. -/
def migRecord (p : Principal) (normalizedRole : String) : ProfileRecord :=
  { uid := p.uid
    email := orElseStr p.email ""
    name := orElseStr p.displayName ""
    role := normalizedRole
    status := if p.disabled then "inactive" else "active" }

/-- The document `set` at the end of one migration iteration,
incrementing `migrated` on success and appending to `errors` on
failure. -/
def migrateSet (f : MigrateFaults) (p : Principal) (st : SyncState)
    (normalizedRole : String) (migrated : Nat) (errors : List String) :
    SyncState × Nat × List String :=
  match f.setFail p.uid with
  | some m => (st, migrated, errors ++ [s!"Error migrando {p.uid}: {m}"])
  | none =>
    ({ st with fs := st.fs ++ [migRecord p normalizedRole] }, migrated + 1, errors)

/-- One iteration of the migrator's loop for the snapshot principal `p`:
skip when a document already exists, otherwise normalize the claim
(defaulting to WAITER), write the claim back if it changed, and create
the document. -/
def migrateOne (f : MigrateFaults) (p : Principal) (st : SyncState)
    (migrated : Nat) (errors : List String) : SyncState × Nat × List String :=
  if (findDoc st.fs p.uid).isSome then (st, migrated, errors)
  else
    let rawRole := orElseStr p.roleClaim "WAITER"
    let normalizedRole := (normalizeRole rawRole).getD "WAITER"
    if rawRole ≠ normalizedRole then
      match f.claimFail p.uid with
      | some m => (st, migrated, errors ++ [s!"Error migrando {p.uid}: {m}"])
      | none =>
        migrateSet f p { st with auth := setRoleClaim st.auth p.uid normalizedRole }
          normalizedRole migrated errors
    else
      migrateSet f p st normalizedRole migrated errors

/-- The migrator's loop over the `listUsers` snapshot. -/
def migrateLoop (f : MigrateFaults) (ps : List Principal) (st : SyncState)
    (migrated : Nat) (errors : List String) : SyncState × Nat × List String :=
  match ps with
  | [] => (st, migrated, errors)
  | p :: rest =>
    match migrateOne f p st migrated errors with
    | (st1, m1, e1) => migrateLoop f rest st1 m1 e1

/-- Embeds `UserSyncService.migrateAuthToFirestore`, returning the final store
state together with the migrated count and the errors list.  The `listUsers(1000)` page
bound is modelled as the full population (one page). -/
def migrateAuthToFirestore (f : MigrateFaults) (st : SyncState) :
    SyncState × Nat × List String :=
  migrateLoop f st.auth st 0 []

/-! ## Helper lemmas -/

theorem list_map_id_of {α : Type} (l : List α) (f : α → α)
    (h : ∀ x ∈ l, f x = x) : l.map f = l := by
  induction l with
  | nil => rfl
  | cons x xs ih =>
    simp only [List.map_cons, h x (List.mem_cons_self x xs)]
    rw [ih (fun y hy => h y (List.mem_cons_of_mem x hy))]

theorem findAuth_map (l : AuthStore) (uid : String) (g : Principal → Principal)
    (hg : ∀ p, (g p).uid = p.uid) :
    findAuth (l.map g) uid = (findAuth l uid).map g := by
  unfold findAuth
  rw [List.find?_map]
  have hpred : ((fun p : Principal => decide (p.uid = uid)) ∘ g)
      = (fun p : Principal => decide (p.uid = uid)) := by
    funext p
    simp [Function.comp, hg]
  rw [hpred]

theorem findDoc_map (l : DocStore) (uid : String) (g : ProfileRecord → ProfileRecord)
    (hg : ∀ r, (g r).uid = r.uid) :
    findDoc (l.map g) uid = (findDoc l uid).map g := by
  unfold findDoc
  rw [List.find?_map]
  have hpred : ((fun r : ProfileRecord => decide (r.uid = uid)) ∘ g)
      = (fun r : ProfileRecord => decide (r.uid = uid)) := by
    funext r
    simp [Function.comp, hg]
  rw [hpred]

theorem findAuth_append (l₁ l₂ : AuthStore) (uid : String) :
    findAuth (l₁ ++ l₂) uid = (findAuth l₁ uid).or (findAuth l₂ uid) :=
  List.find?_append

theorem findDoc_append (l₁ l₂ : DocStore) (uid : String) :
    findDoc (l₁ ++ l₂) uid = (findDoc l₁ uid).or (findDoc l₂ uid) :=
  List.find?_append

theorem findAuth_removeAuth (l : AuthStore) (uid : String) :
    findAuth (removeAuth l uid) uid = none := by
  unfold findAuth removeAuth
  rw [List.find?_eq_none]
  intro p hp
  have := List.of_mem_filter hp
  simpa using this

theorem findDoc_singleton_eq (r : ProfileRecord) (uid : String) (h : r.uid = uid) :
    findDoc [r] uid = some r := by
  simp [findDoc, List.find?, h]

theorem findDoc_singleton_ne (r : ProfileRecord) (uid : String) (h : r.uid ≠ uid) :
    findDoc [r] uid = none := by
  simp [findDoc, List.find?, h]

/-! ## Claims -/

/-- C5: for every pair of store snapshots, the report returned by
`auditSync` has `isConsistent = true` iff all three collections are
empty, and each summary count equals the length of the corresponding
collection. -/
theorem auditSync_summary_consistent (st : SyncState) :
    ((auditSync st).summary.isConsistent = true ↔
      (auditSync st).missingInFirestore = [] ∧
      (auditSync st).missingInAuth = [] ∧
      (auditSync st).inconsistencies = []) ∧
    (auditSync st).summary.missingInFirestoreCount
      = (auditSync st).missingInFirestore.length ∧
    (auditSync st).summary.missingInAuthCount
      = (auditSync st).missingInAuth.length ∧
    (auditSync st).summary.inconsistenciesCount
      = (auditSync st).inconsistencies.length ∧
    (auditSync st).summary.totalInAuth = st.auth.length ∧
    (auditSync st).summary.totalInFirestore = st.fs.length := by
  refine ⟨?_, rfl, rfl, rfl, rfl, rfl⟩
  simp [auditSync, List.length_eq_zero, and_assoc]

/-- C7: `normalizeRole s` is valid exactly when `s` uppercases to one of
ADMIN, KITCHEN, WAITER (otherwise it is `none`), and it is idempotent on
its valid outputs: `normalizeRole s = some r → normalizeRole r = some r`. -/
theorem normalizeRole_valid_iff_and_idem :
    (∀ s : String, (normalizeRole s).isSome ↔
      (toUpperStr s = "ADMIN" ∨ toUpperStr s = "KITCHEN" ∨ toUpperStr s = "WAITER")) ∧
    (∀ s r : String, normalizeRole s = some r → normalizeRole r = some r) := by
  constructor
  · intro s
    by_cases h : toUpperStr s = "ADMIN" ∨ toUpperStr s = "KITCHEN" ∨ toUpperStr s = "WAITER"
    · simp only [normalizeRole, validRoles]
      rcases h with h | h | h <;> simp [h]
    · push_neg at h
      obtain ⟨h1, h2, h3⟩ := h
      simp [normalizeRole, validRoles, h1, h2, h3]
  · intro s r h
    simp only [normalizeRole, validRoles] at h ⊢
    split at h
    case isTrue hc =>
      have hr : r = toUpperStr s := (Option.some.injEq _ _).mp h.symm
      subst hr
      simp only [List.contains_eq_any_beq, List.any_cons, List.any_nil,
        Bool.or_eq_true, beq_iff_eq, Bool.false_eq_true, or_false] at hc
      rcases hc with hc | hc | hc <;> rw [hc] <;> decide
    case isFalse => exact absurd h (by simp)

/-- Witness for C7: "admin" normalizes to "ADMIN", on which the
normalizer is a fixpoint. -/
theorem normalizeRole_valid_iff_and_idem_witness :
    normalizeRole "admin" = some "ADMIN" ∧ normalizeRole "ADMIN" = some "ADMIN" :=
  ⟨by decide, normalizeRole_valid_iff_and_idem.2 "admin" "ADMIN" (by decide)⟩

/-- C6 counterexample: a uid disabled in the identity store but active
in the document store.  The single inconsistency entry reports the
identity-side status value as the string "inactive" — a rendering of
the stored boolean `disabled = true`, and not equal to any string the
principal actually stores — so the claim that no transformation is
applied to the reported values "for the status field alike" fails. -/
theorem audit_status_value_transformed_cex :
    (auditSync ⟨[⟨"u1", some "Ann", some "a@b.com", some "ADMIN", true⟩],
        [⟨"u1", "a@b.com", "Ann", "ADMIN", "active"⟩]⟩).inconsistencies
      = [⟨"u1", "status", some "inactive", some "active"⟩] ∧
    (⟨"u1", some "Ann", some "a@b.com", some "ADMIN", true⟩ : Principal).disabled
      = true ∧
    (⟨"u1", some "Ann", some "a@b.com", some "ADMIN", true⟩ : Principal).displayName
      ≠ some "inactive" ∧
    (⟨"u1", some "Ann", some "a@b.com", some "ADMIN", true⟩ : Principal).email
      ≠ some "inactive" ∧
    (⟨"u1", some "Ann", some "a@b.com", some "ADMIN", true⟩ : Principal).roleClaim
      ≠ some "inactive" := by
  decide

/-- C6 (amended): every inconsistency entry produced by `auditSync` reports the
stored values untransformed: a name entry carries the identity store's
`displayName` and the document's `name` exactly; a role entry carries
both role strings exactly as stored (not the uppercased forms used for
the comparison); a status entry carries the document's `status` string
exactly and the identity store's boolean `disabled` rendered as
active/inactive. -/
theorem audit_inconsistency_values_raw (st : SyncState) (e : Inconsistency)
    (he : e ∈ (auditSync st).inconsistencies) :
    ∃ p, p ∈ st.auth ∧ ∃ r, findDoc st.fs p.uid = some r ∧ e.uid = p.uid ∧
      ((e.field = "name" ∧ e.authValue = p.displayName ∧
          e.firestoreValue = some r.name) ∨
       (e.field = "role" ∧ e.authValue = p.roleClaim ∧
          e.firestoreValue = some r.role) ∨
       (e.field = "status" ∧
          e.authValue = some (if p.disabled then "inactive" else "active") ∧
          e.firestoreValue = some r.status)) := by
  have he' : e ∈ auditInconsistencies st := he
  unfold auditInconsistencies at he'
  rw [List.mem_flatMap] at he'
  obtain ⟨p, hp, hmem⟩ := he'
  refine ⟨p, hp, ?_⟩
  cases hd : findDoc st.fs p.uid with
  | none => rw [hd] at hmem; simp at hmem
  | some r =>
    rw [hd] at hmem
    refine ⟨r, rfl, ?_⟩
    unfold inconsistenciesFor at hmem
    rw [List.mem_append, List.mem_append] at hmem
    rcases hmem with (hmem | hmem) | hmem
    · by_cases c : p.displayName ≠ some r.name
      · rw [if_pos c, List.mem_singleton] at hmem
        subst hmem
        exact ⟨rfl, Or.inl ⟨rfl, rfl, rfl⟩⟩
      · rw [if_neg c] at hmem
        exact absurd hmem (List.not_mem_nil _)
    · by_cases c : p.roleClaim.map toUpperStr ≠ some (toUpperStr r.role)
      · rw [if_pos c, List.mem_singleton] at hmem
        subst hmem
        exact ⟨rfl, Or.inr (Or.inl ⟨rfl, rfl, rfl⟩)⟩
      · rw [if_neg c] at hmem
        exact absurd hmem (List.not_mem_nil _)
    · by_cases c : (p.disabled != (r.status == "inactive")) = true
      · rw [if_pos c, List.mem_singleton] at hmem
        subst hmem
        exact ⟨rfl, Or.inr (Or.inr ⟨rfl, rfl, rfl⟩)⟩
      · rw [if_neg c] at hmem
        exact absurd hmem (List.not_mem_nil _)

/-- Witness for C6: a store pair whose shared uid has a case-mismatched
role claim; the reported entry carries the raw lowercase claim. -/
theorem audit_inconsistency_values_raw_witness :
    ((⟨"u1", "role", some "admin", some "WAITER"⟩ : Inconsistency)
        ∈ (auditSync
            { auth := [⟨"u1", some "Ann", some "a@b.com", some "admin", false⟩],
              fs := [⟨"u1", "a@b.com", "Ann", "WAITER", "active"⟩] }).inconsistencies) ∧
    (∃ p, p ∈ ({ auth := [⟨"u1", some "Ann", some "a@b.com", some "admin", false⟩],
                 fs := [⟨"u1", "a@b.com", "Ann", "WAITER", "active"⟩] } : SyncState).auth ∧
      ∃ r, findDoc [⟨"u1", "a@b.com", "Ann", "WAITER", "active"⟩] p.uid = some r ∧
        (⟨"u1", "role", some "admin", some "WAITER"⟩ : Inconsistency).uid = p.uid ∧
        (((⟨"u1", "role", some "admin", some "WAITER"⟩ : Inconsistency).field = "name" ∧
            (⟨"u1", "role", some "admin", some "WAITER"⟩ : Inconsistency).authValue = p.displayName ∧
            (⟨"u1", "role", some "admin", some "WAITER"⟩ : Inconsistency).firestoreValue = some r.name) ∨
         ((⟨"u1", "role", some "admin", some "WAITER"⟩ : Inconsistency).field = "role" ∧
            (⟨"u1", "role", some "admin", some "WAITER"⟩ : Inconsistency).authValue = p.roleClaim ∧
            (⟨"u1", "role", some "admin", some "WAITER"⟩ : Inconsistency).firestoreValue = some r.role) ∨
         ((⟨"u1", "role", some "admin", some "WAITER"⟩ : Inconsistency).field = "status" ∧
            (⟨"u1", "role", some "admin", some "WAITER"⟩ : Inconsistency).authValue
              = some (if p.disabled then "inactive" else "active") ∧
            (⟨"u1", "role", some "admin", some "WAITER"⟩ : Inconsistency).firestoreValue = some r.status))) :=
  ⟨by decide, audit_inconsistency_values_raw _ _ (by decide)⟩

/-- C1 counterexample: a valid create in which the document-store write
fails with "disk full" and the compensating delete itself also fails.
After the call returns the identity-store principal for the new uid
still exists while the document store has no record for it, so the
claimed unconditional rollback (and the both-or-neither disjunction)
fails. -/
theorem createUser_rollback_cex :
    (createUser ⟨none, none, some "disk full", some "perm"⟩ "u2"
        ⟨[], []⟩ ⟨"c@d.com", "x", "Bob", "ADMIN"⟩).1
      = .error "disk full" ∧
    (findAuth (createUser ⟨none, none, some "disk full", some "perm"⟩ "u2"
        ⟨[], []⟩ ⟨"c@d.com", "x", "Bob", "ADMIN"⟩).2.auth "u2").isSome = true ∧
    findDoc (createUser ⟨none, none, some "disk full", some "perm"⟩ "u2"
        ⟨[], []⟩ ⟨"c@d.com", "x", "Bob", "ADMIN"⟩).2.fs "u2" = none := by
  decide

/-- C1 (amended): for every createUser call with a valid role in which
the compensating delete does not itself fail, a document-store failure
leaves no principal for the new uid, and after any such return either
both stores contain a record for the new uid with matching role or
neither store does. -/
theorem createUser_atomic (f : CreateFaults) (st : SyncState) (newUid : String)
    (data : ICreateUserData)
    (hrole : (normalizeRole data.role).isSome)
    (hdel : f.failDelete = none)
    (ha : findAuth st.auth newUid = none)
    (hf : findDoc st.fs newUid = none) :
    (∀ m, f.failCreate = none → f.failSetClaims = none → f.failDocSet = some m →
      (createUser f newUid st data).1 = .error m ∧
      findAuth (createUser f newUid st data).2.auth newUid = none) ∧
    ((∃ p r, findAuth (createUser f newUid st data).2.auth newUid = some p ∧
        findDoc (createUser f newUid st data).2.fs newUid = some r ∧
        p.roleClaim = some r.role) ∨
     (findAuth (createUser f newUid st data).2.auth newUid = none ∧
      findDoc (createUser f newUid st data).2.fs newUid = none)) := by
  obtain ⟨nr, hnr⟩ := Option.isSome_iff_exists.mp hrole
  have hg : ∀ p : Principal,
      ((fun p => if p.uid = newUid then { p with roleClaim := some nr } else p) p).uid
        = p.uid := by
    intro p
    by_cases h : p.uid = newUid <;> simp [h]
  constructor
  · intro m hc hs hdcs
    simp only [createUser, hnr, hc, hs, hdcs, hdel, Option.isSome_none,
      Bool.false_eq_true, if_false]
    exact ⟨by trivial, findAuth_removeAuth _ _⟩
  · cases hc : f.failCreate with
    | some m0 =>
      right
      simp only [createUser, hnr, hc]
      exact ⟨ha, hf⟩
    | none =>
      cases hs : f.failSetClaims with
      | some m1 =>
        right
        simp only [createUser, hnr, hc, hs, hdel, Option.isSome_none,
          Bool.false_eq_true, if_false]
        exact ⟨findAuth_removeAuth _ _, hf⟩
      | none =>
        cases hd2 : f.failDocSet with
        | some m2 =>
          right
          simp only [createUser, hnr, hc, hs, hd2, hdel, Option.isSome_none,
            Bool.false_eq_true, if_false]
          exact ⟨findAuth_removeAuth _ _, hf⟩
        | none =>
          left
          simp only [createUser, hnr, hc, hs, hd2]
          have h1 : findAuth
              (st.auth ++ [⟨newUid, some data.name, some data.email, none, false⟩])
              newUid = some ⟨newUid, some data.name, some data.email, none, false⟩ := by
            rw [findAuth_append, ha]
            simp [findAuth, List.find?]
          refine ⟨⟨newUid, some data.name, some data.email, some nr, false⟩,
            ⟨newUid, data.email, data.name, nr, "active"⟩, ?_, ?_, rfl⟩
          · unfold setRoleClaim
            rw [findAuth_map _ _ _ hg, h1]
            simp
          · rw [findDoc_append, hf]
            simp [findDoc, List.find?]

/-- Witness for C1: a document-store failure with a working delete on an
empty system surfaces the error and leaves no principal behind. -/
theorem createUser_atomic_witness :
    (createUser ⟨none, none, some "disk full", none⟩ "u2" ⟨[], []⟩
        ⟨"a@b.com", "x", "A", "ADMIN"⟩).1 = .error "disk full" ∧
    findAuth (createUser ⟨none, none, some "disk full", none⟩ "u2" ⟨[], []⟩
        ⟨"a@b.com", "x", "A", "ADMIN"⟩).2.auth "u2" = none :=
  (createUser_atomic ⟨none, none, some "disk full", none⟩ ⟨[], []⟩ "u2"
      ⟨"a@b.com", "x", "A", "ADMIN"⟩ (by decide) (by decide) (by decide)
      (by decide)).1 "disk full" rfl rfl rfl

/-- C3 counterexample: when setting the role claim fails (a step of the
identity store, after the principal was created), `createUser` performs
the compensating delete: the final identity store no longer contains the
new uid.  The third conjunct shows the same run with a failing delete,
where the principal survives — so it is the compensating delete that
removes it. -/
theorem createUser_claims_failure_cex :
    (createUser ⟨none, some "claims boom", none, none⟩ "u2" ⟨[], []⟩
        ⟨"c@d.com", "x", "Bob", "ADMIN"⟩).1 = .error "claims boom" ∧
    findAuth (createUser ⟨none, some "claims boom", none, none⟩ "u2" ⟨[], []⟩
        ⟨"c@d.com", "x", "Bob", "ADMIN"⟩).2.auth "u2" = none ∧
    (findAuth (createUser ⟨none, some "claims boom", none, some "perm"⟩ "u2"
        ⟨[], []⟩ ⟨"c@d.com", "x", "Bob", "ADMIN"⟩).2.auth "u2").isSome = true := by
  decide

/-- C3 (amended): a failure of creating the principal is surfaced with
no state change and no compensation (nothing was created); but a
failure of setting the role claim, which happens after the principal
exists, triggers the same compensating delete as a document-store
failure: with a working delete the principal is gone afterwards. -/
theorem createUser_identity_failure (f : CreateFaults) (st : SyncState)
    (newUid : String) (data : ICreateUserData)
    (hrole : (normalizeRole data.role).isSome) :
    (∀ m, f.failCreate = some m →
      createUser f newUid st data = (.error m, st)) ∧
    (∀ m, f.failCreate = none → f.failSetClaims = some m → f.failDelete = none →
      (createUser f newUid st data).1 = .error m ∧
      findAuth (createUser f newUid st data).2.auth newUid = none ∧
      (createUser f newUid st data).2.fs = st.fs) := by
  obtain ⟨nr, hnr⟩ := Option.isSome_iff_exists.mp hrole
  constructor
  · intro m hc
    simp only [createUser, hnr, hc]
  · intro m hc hs hdel
    simp only [createUser, hnr, hc, hs, hdel, Option.isSome_none,
      Bool.false_eq_true, if_false]
    exact ⟨by trivial, findAuth_removeAuth _ _, by trivial⟩

/-- Witness for C3 (amended): a create-step failure returns the error
with the state untouched; a claims-step failure surfaces its error and
leaves no principal. -/
theorem createUser_identity_failure_witness :
    createUser ⟨some "auth down", none, none, none⟩ "u2" ⟨[], []⟩
        ⟨"a@b.com", "x", "A", "KITCHEN"⟩
      = (.error "auth down", ⟨[], []⟩) ∧
    (createUser ⟨none, some "claims boom", none, none⟩ "u2" ⟨[], []⟩
        ⟨"a@b.com", "x", "A", "KITCHEN"⟩).1 = .error "claims boom" ∧
    findAuth (createUser ⟨none, some "claims boom", none, none⟩ "u2" ⟨[], []⟩
        ⟨"a@b.com", "x", "A", "KITCHEN"⟩).2.auth "u2" = none ∧
    (createUser ⟨none, some "claims boom", none, none⟩ "u2" ⟨[], []⟩
        ⟨"a@b.com", "x", "A", "KITCHEN"⟩).2.fs = [] :=
  ⟨(createUser_identity_failure ⟨some "auth down", none, none, none⟩ ⟨[], []⟩
      "u2" ⟨"a@b.com", "x", "A", "KITCHEN"⟩ (by decide)).1 "auth down" rfl,
   (createUser_identity_failure ⟨none, some "claims boom", none, none⟩ ⟨[], []⟩
      "u2" ⟨"a@b.com", "x", "A", "KITCHEN"⟩ (by decide)).2 "claims boom" rfl rfl rfl⟩

/-- C2: across all four sync-engine operations, when the secondary
(document-store) step fails, the surfaced error is exactly that step's
error, whatever the compensation outcome: the compensation fault fields
(`failDelete` / `rollback`) are left unconstrained. -/
theorem secondary_error_always_propagates :
    (∀ (f : CreateFaults) (st : SyncState) (newUid : String)
        (data : ICreateUserData) (m : String),
      (normalizeRole data.role).isSome →
      f.failCreate = none → f.failSetClaims = none → f.failDocSet = some m →
      (createUser f newUid st data).1 = .error m) ∧
    (∀ (f : OpFaults) (st : SyncState) (uid : String)
        (data : IUpdateUserData) (m : String),
      (findAuth st.auth uid).isSome →
      (∀ r, truthy data.role = some r → (normalizeRole r).isSome) →
      f.primary = none → f.secondary = some m →
      (updateUser f st uid data).1 = .error m) ∧
    (∀ (f : OpFaults) (st : SyncState) (uid : String) (m : String),
      (findAuth st.auth uid).isSome →
      f.primary = none → f.secondary = some m →
      (disableUser f st uid).1 = .error m) ∧
    (∀ (f : OpFaults) (st : SyncState) (uid : String) (m : String),
      (findAuth st.auth uid).isSome →
      f.primary = none → f.secondary = some m →
      (enableUser f st uid).1 = .error m) := by
  refine ⟨?_, ?_, ?_, ?_⟩
  · intro f st newUid data m hrole hc hs hm
    obtain ⟨nr, hnr⟩ := Option.isSome_iff_exists.mp hrole
    simp only [createUser, hnr, hc, hs, hm]
  · intro f st uid data m hfound hval hp hm
    obtain ⟨p, hpfind⟩ := Option.isSome_iff_exists.mp hfound
    have hgo : ∀ (nt nrr : Option String),
        (updateUserGo f st uid p nt nrr).1 = .error m := by
      intro nt nrr
      simp only [updateUserGo, hp, hm]
    cases ht : truthy data.role with
    | none => simp only [updateUser, hpfind, ht]; exact hgo _ _
    | some r =>
      obtain ⟨nr, hnr⟩ := Option.isSome_iff_exists.mp (hval r ht)
      simp only [updateUser, hpfind, ht, hnr]
      exact hgo _ _
  · intro f st uid m hfound hp hm
    obtain ⟨p, hpfind⟩ := Option.isSome_iff_exists.mp hfound
    simp only [disableUser, hpfind, hp, hm]
  · intro f st uid m hfound hp hm
    obtain ⟨p, hpfind⟩ := Option.isSome_iff_exists.mp hfound
    simp only [enableUser, hpfind, hp, hm]

/-- Witness for C2: one run of each operation with a failing secondary
write AND a failing compensation; the surfaced error is the secondary
error every time. -/
theorem secondary_error_always_propagates_witness :
    (createUser ⟨none, none, some "db down", some "perm"⟩ "u2" ⟨[], []⟩
        ⟨"a@b.com", "x", "A", "ADMIN"⟩).1 = .error "db down" ∧
    (updateUser ⟨none, some "db down", some "rb fail"⟩
        ⟨[⟨"u1", some "Ann", some "a@b.com", some "ADMIN", false⟩],
         [⟨"u1", "a@b.com", "Ann", "ADMIN", "active"⟩]⟩ "u1"
        ⟨some "B", none⟩).1 = .error "db down" ∧
    (disableUser ⟨none, some "db down", some "rb fail"⟩
        ⟨[⟨"u1", some "Ann", some "a@b.com", some "ADMIN", false⟩],
         [⟨"u1", "a@b.com", "Ann", "ADMIN", "active"⟩]⟩ "u1").1
      = .error "db down" ∧
    (enableUser ⟨none, some "db down", some "rb fail"⟩
        ⟨[⟨"u1", some "Ann", some "a@b.com", some "ADMIN", false⟩],
         [⟨"u1", "a@b.com", "Ann", "ADMIN", "active"⟩]⟩ "u1").1
      = .error "db down" :=
  ⟨secondary_error_always_propagates.1 _ _ _ _ _ (by decide) rfl rfl rfl,
   secondary_error_always_propagates.2.1 _ _ _ _ _ (by decide)
     (by intro r hr; simp [truthy] at hr) rfl rfl,
   secondary_error_always_propagates.2.2.1 _ _ _ _ (by decide) rfl rfl,
   secondary_error_always_propagates.2.2.2 _ _ _ _ (by decide) rfl rfl⟩

/-- C8: for a uid that exists in the identity store with
`disabled = false` and has an active document record, a fault-free
`disableUser` followed by a fault-free `enableUser` returns both stores
to exactly the pre-disable state. -/
theorem disable_enable_roundtrip (st : SyncState) (uid : String)
    (hA : (findAuth st.auth uid).isSome)
    (hD : (findDoc st.fs uid).isSome)
    (hact : ∀ p ∈ st.auth, p.uid = uid → p.disabled = false)
    (hst : ∀ r ∈ st.fs, r.uid = uid → r.status = "active") :
    (disableUser noOpFaults st uid).1 = .ok () ∧
    (enableUser noOpFaults (disableUser noOpFaults st uid).2 uid).1 = .ok () ∧
    (enableUser noOpFaults (disableUser noOpFaults st uid).2 uid).2 = st := by
  obtain ⟨p, hp⟩ := Option.isSome_iff_exists.mp hA
  obtain ⟨r, hr⟩ := Option.isSome_iff_exists.mp hD
  have hpu : p.uid = uid := by simpa using List.find?_some hp
  have hru : r.uid = uid := by simpa using List.find?_some hr
  have hgd : ∀ (b : Bool) (q : Principal),
      ((fun q => if q.uid = uid then { q with disabled := b } else q) q).uid = q.uid := by
    intro b q
    by_cases h : q.uid = uid <;> simp [h]
  have hgs : ∀ (s : String) (q : ProfileRecord),
      ((fun q => if q.uid = uid then { q with status := s } else q) q).uid = q.uid := by
    intro s q
    by_cases h : q.uid = uid <;> simp [h]
  have hd1 : disableUser noOpFaults st uid
      = (.ok (), ⟨setDisabled st.auth uid true, setStatus st.fs uid "inactive"⟩) := by
    simp only [disableUser, hp, noOpFaults, hr]
  have hA1 : findAuth (setDisabled st.auth uid true) uid
      = some { p with disabled := true } := by
    unfold setDisabled
    rw [findAuth_map _ _ _ (hgd true), hp]
    simp [hpu]
  have hD1 : findDoc (setStatus st.fs uid "inactive") uid
      = some { r with status := "inactive" } := by
    unfold setStatus
    rw [findDoc_map _ _ _ (hgs "inactive"), hr]
    simp [hru]
  have he1 : enableUser noOpFaults
      ⟨setDisabled st.auth uid true, setStatus st.fs uid "inactive"⟩ uid
      = (.ok (), ⟨setDisabled (setDisabled st.auth uid true) uid false,
                  setStatus (setStatus st.fs uid "inactive") uid "active"⟩) := by
    simp only [enableUser, hA1, noOpFaults, hD1]
  have hauth : setDisabled (setDisabled st.auth uid true) uid false = st.auth := by
    unfold setDisabled
    rw [List.map_map]
    apply list_map_id_of
    intro q hq
    by_cases h : q.uid = uid
    · obtain ⟨qu, qd, qe, qr, qb⟩ := q
      have hb : qb = false := hact _ hq h
      have h' : qu = uid := h
      subst hb
      subst h'
      simp [Function.comp]
    · simp [Function.comp, h]
  have hfs : setStatus (setStatus st.fs uid "inactive") uid "active" = st.fs := by
    unfold setStatus
    rw [List.map_map]
    apply list_map_id_of
    intro q hq
    by_cases h : q.uid = uid
    · obtain ⟨qu, qe, qn, qr, qs⟩ := q
      have hb : qs = "active" := hst _ hq h
      have h' : qu = uid := h
      subst hb
      subst h'
      simp [Function.comp]
    · simp [Function.comp, h]
  simp only [hd1]
  simp only [he1]
  exact ⟨by trivial, by trivial, by rw [hauth, hfs]⟩

/-- Witness for C8: one active user with a matching active document;
disable then enable restores the exact initial state. -/
theorem disable_enable_roundtrip_witness :
    (disableUser noOpFaults
        ⟨[⟨"u1", some "Ann", some "a@b.com", some "ADMIN", false⟩],
         [⟨"u1", "a@b.com", "Ann", "ADMIN", "active"⟩]⟩ "u1").1 = .ok () ∧
    (enableUser noOpFaults
        (disableUser noOpFaults
          ⟨[⟨"u1", some "Ann", some "a@b.com", some "ADMIN", false⟩],
           [⟨"u1", "a@b.com", "Ann", "ADMIN", "active"⟩]⟩ "u1").2 "u1").1 = .ok () ∧
    (enableUser noOpFaults
        (disableUser noOpFaults
          ⟨[⟨"u1", some "Ann", some "a@b.com", some "ADMIN", false⟩],
           [⟨"u1", "a@b.com", "Ann", "ADMIN", "active"⟩]⟩ "u1").2 "u1").2
      = ⟨[⟨"u1", some "Ann", some "a@b.com", some "ADMIN", false⟩],
         [⟨"u1", "a@b.com", "Ann", "ADMIN", "active"⟩]⟩ :=
  disable_enable_roundtrip
    ⟨[⟨"u1", some "Ann", some "a@b.com", some "ADMIN", false⟩],
     [⟨"u1", "a@b.com", "Ann", "ADMIN", "active"⟩]⟩ "u1"
    (by decide) (by decide) (by decide) (by decide)

/-- C9: after a document-store failure in `updateUser` (with a working
compensation), the identity-store rollback restores a field only when
its pre-update value was defined: a previously undefined `displayName`
or role claim keeps the newly written value even though the
document-store write failed. -/
theorem updateUser_rollback_only_defined (f : OpFaults) (st : SyncState)
    (uid : String) (p : Principal) (n rr nr m : String)
    (hfind : findAuth st.auth uid = some p)
    (hn : n ≠ "")
    (hval : normalizeRole rr = some nr)
    (hp : f.primary = none) (hm : f.secondary = some m)
    (hrb : f.rollback = none) :
    (updateUser f st uid ⟨some n, some rr⟩).1 = .error m ∧
    findAuth (updateUser f st uid ⟨some n, some rr⟩).2.auth uid
      = some { p with
          displayName := if p.displayName.isSome then p.displayName else some n,
          roleClaim := if p.roleClaim.isSome then p.roleClaim else some nr } ∧
    (updateUser f st uid ⟨some n, some rr⟩).2.fs = st.fs := by
  have hrr : rr ≠ "" := by
    intro h
    rw [h] at hval
    rw [show normalizeRole "" = none from by decide] at hval
    cases hval
  have hpu : p.uid = uid := by simpa using List.find?_some hfind
  have ht1 : truthy (some n) = some n := by simp [truthy, hn]
  have ht2 : truthy (some rr) = some rr := by simp [truthy, hrr]
  have hg1 : ∀ q : Principal,
      ((fun q => if q.uid = uid then
          { q with
            displayName := match some n with | some x => some x | none => q.displayName
            roleClaim := match some nr with | some x => some x | none => q.roleClaim }
        else q) q).uid = q.uid := by
    intro q
    by_cases h : q.uid = uid <;> simp [h]
  have hg2 : ∀ q : Principal,
      ((fun q => if q.uid = uid then
          { q with
            displayName :=
              if (some n).isSome && p.displayName.isSome then p.displayName
              else q.displayName
            roleClaim :=
              if (some nr).isSome && p.roleClaim.isSome then p.roleClaim
              else q.roleClaim }
        else q) q).uid = q.uid := by
    intro q
    by_cases h : q.uid = uid <;> simp [h]
  have hgo : updateUser f st uid ⟨some n, some rr⟩
      = updateUserGo f st uid p (some n) (some nr) := by
    simp only [updateUser, hfind, ht2, hval, ht1]
  rw [hgo]
  have hres : updateUserGo f st uid p (some n) (some nr)
      = (.error m,
         { st with auth :=
            (rollbackAuthUpdate (applyAuthUpdate st.auth uid (some n) (some nr))
              uid (some n) (some nr) p.displayName p.roleClaim) }) := by
    simp only [updateUserGo, hp, hm, hrb, Option.isSome_none,
      Bool.false_eq_true, if_false]
  rw [hres]
  refine ⟨rfl, ?_, rfl⟩
  unfold rollbackAuthUpdate applyAuthUpdate
  rw [findAuth_map _ _ _ hg2, findAuth_map _ _ _ hg1, hfind]
  simp [hpu]

/-- Witness for C9: the principal had no `displayName` but did have a
role claim; after the failed document write, the new name stays and the
old claim is restored. -/
theorem updateUser_rollback_only_defined_witness :
    (updateUser ⟨none, some "db down", none⟩
        ⟨[⟨"u1", none, some "a@b.com", some "WAITER", false⟩],
         [⟨"u1", "a@b.com", "", "WAITER", "active"⟩]⟩ "u1"
        ⟨some "Bob", some "kitchen"⟩).1 = .error "db down" ∧
    findAuth (updateUser ⟨none, some "db down", none⟩
        ⟨[⟨"u1", none, some "a@b.com", some "WAITER", false⟩],
         [⟨"u1", "a@b.com", "", "WAITER", "active"⟩]⟩ "u1"
        ⟨some "Bob", some "kitchen"⟩).2.auth "u1"
      = some ⟨"u1", some "Bob", some "a@b.com", some "WAITER", false⟩ ∧
    (updateUser ⟨none, some "db down", none⟩
        ⟨[⟨"u1", none, some "a@b.com", some "WAITER", false⟩],
         [⟨"u1", "a@b.com", "", "WAITER", "active"⟩]⟩ "u1"
        ⟨some "Bob", some "kitchen"⟩).2.fs
      = [⟨"u1", "a@b.com", "", "WAITER", "active"⟩] :=
  updateUser_rollback_only_defined ⟨none, some "db down", none⟩
    ⟨[⟨"u1", none, some "a@b.com", some "WAITER", false⟩],
     [⟨"u1", "a@b.com", "", "WAITER", "active"⟩]⟩ "u1"
    ⟨"u1", none, some "a@b.com", some "WAITER", false⟩ "Bob" "kitchen" "KITCHEN"
    "db down" (by decide) (by decide) (by decide) rfl rfl rfl

/-! ## Migrator lemmas -/

theorem findDoc_append_left (fs t : DocStore) (u : String) (r : ProfileRecord)
    (h : findDoc fs u = some r) : findDoc (fs ++ t) u = some r := by
  rw [findDoc_append, h]
  rfl

theorem migrateOne_skip (f : MigrateFaults) (q : Principal) (st : SyncState)
    (m : Nat) (e : List String) (h : (findDoc st.fs q.uid).isSome) :
    migrateOne f q st m e = (st, m, e) := by
  unfold migrateOne
  rw [if_pos h]

theorem map_uid_setRoleClaim (l : AuthStore) (u nr : String) :
    (setRoleClaim l u nr).map Principal.uid = l.map Principal.uid := by
  induction l with
  | nil => rfl
  | cons x xs ih =>
    simp only [setRoleClaim, List.map_cons] at ih ⊢
    by_cases h : x.uid = u <;> simp [h, ih]

theorem migrateOne_fs_shape (f : MigrateFaults) (q : Principal) (st : SyncState)
    (m : Nat) (e : List String) :
    (migrateOne f q st m e).1.fs = st.fs ∨
    ∃ x : ProfileRecord, x.uid = q.uid ∧
      (migrateOne f q st m e).1.fs = st.fs ++ [x] := by
  by_cases hc : (findDoc st.fs q.uid).isSome
  · rw [migrateOne_skip f q st m e hc]
    left; rfl
  · by_cases hr : orElseStr q.roleClaim "WAITER"
        ≠ (normalizeRole (orElseStr q.roleClaim "WAITER")).getD "WAITER"
    · cases hcf : f.claimFail q.uid with
      | some msg =>
        left
        simp [migrateOne, migrateSet, hc, hr, hcf]
      | none =>
        cases hsf : f.setFail q.uid with
        | some msg2 =>
          left
          simp [migrateOne, migrateSet, hc, hr, hcf, hsf]
        | none =>
          right
          refine ⟨migRecord q
            ((normalizeRole (orElseStr q.roleClaim "WAITER")).getD "WAITER"),
            rfl, ?_⟩
          simp [migrateOne, migrateSet, hc, hr, hcf, hsf]
    · cases hsf : f.setFail q.uid with
      | some msg2 =>
        left
        simp [migrateOne, migrateSet, hc, hr, hsf]
      | none =>
        right
        refine ⟨migRecord q
          ((normalizeRole (orElseStr q.roleClaim "WAITER")).getD "WAITER"),
          rfl, ?_⟩
        simp [migrateOne, migrateSet, hc, hr, hsf]

theorem migrateOne_nofault_fs (q : Principal) (st : SyncState) (m : Nat)
    (e : List String) (hc : ¬ (findDoc st.fs q.uid).isSome = true) :
    (migrateOne noMigrateFaults q st m e).1.fs
      = st.fs ++
        [migRecord q ((normalizeRole (orElseStr q.roleClaim "WAITER")).getD "WAITER")] := by
  by_cases hr : orElseStr q.roleClaim "WAITER"
      ≠ (normalizeRole (orElseStr q.roleClaim "WAITER")).getD "WAITER" <;>
    simp [migrateOne, migrateSet, noMigrateFaults, hc, hr]

theorem migrateOne_nofault_step (q : Principal) (st : SyncState) (m : Nat)
    (e : List String) :
    (migrateOne noMigrateFaults q st m e).2.2 = e ∧
    (findDoc (migrateOne noMigrateFaults q st m e).1.fs q.uid).isSome ∧
    (migrateOne noMigrateFaults q st m e).1.auth.map Principal.uid
      = st.auth.map Principal.uid ∧
    (¬ (findDoc st.fs q.uid).isSome = true →
      (migrateOne noMigrateFaults q st m e).2.1 = m + 1) := by
  by_cases hc : (findDoc st.fs q.uid).isSome
  · rw [migrateOne_skip _ _ _ _ _ hc]
    exact ⟨rfl, hc, rfl, fun h => absurd hc h⟩
  · have hfs := migrateOne_nofault_fs q st m e hc
    have hfound : (findDoc (migrateOne noMigrateFaults q st m e).1.fs q.uid).isSome := by
      rw [hfs, findDoc_append, Option.not_isSome_iff_eq_none.mp hc]
      simp [findDoc, List.find?, migRecord]
    refine ⟨?_, hfound, ?_, fun _ => ?_⟩ <;>
      by_cases hr : orElseStr q.roleClaim "WAITER"
          ≠ (normalizeRole (orElseStr q.roleClaim "WAITER")).getD "WAITER" <;>
        simp [migrateOne, migrateSet, noMigrateFaults, hc, hr, map_uid_setRoleClaim]

theorem migrateLoop_preserves_found (f : MigrateFaults) (ps : List Principal)
    (st : SyncState) (m : Nat) (e : List String) (u : String) (r : ProfileRecord)
    (h : findDoc st.fs u = some r) :
    findDoc (migrateLoop f ps st m e).1.fs u = some r := by
  induction ps generalizing st m e with
  | nil => simpa using h
  | cons q rest ih =>
    rcases hmo : migrateOne f q st m e with ⟨st1, m1, e1⟩
    simp only [migrateLoop, hmo]
    have hsh := migrateOne_fs_shape f q st m e
    rw [hmo] at hsh
    apply ih
    rcases hsh with hfs | ⟨x, hx, hfs⟩
    · rw [hfs]; exact h
    · rw [hfs]; exact findDoc_append_left _ _ _ _ h

theorem migrateLoop_preserves_isSome (f : MigrateFaults) (ps : List Principal)
    (st : SyncState) (m : Nat) (e : List String) (u : String)
    (h : (findDoc st.fs u).isSome) :
    (findDoc (migrateLoop f ps st m e).1.fs u).isSome := by
  obtain ⟨r, hr⟩ := Option.isSome_iff_exists.mp h
  rw [migrateLoop_preserves_found f ps st m e u r hr]
  rfl

theorem migrateLoop_skip_all (f : MigrateFaults) (ps : List Principal)
    (st : SyncState) (m : Nat) (e : List String)
    (h : ∀ q ∈ ps, (findDoc st.fs q.uid).isSome) :
    migrateLoop f ps st m e = (st, m, e) := by
  induction ps with
  | nil => rfl
  | cons q rest ih =>
    have hq := h q (List.mem_cons_self q rest)
    simp only [migrateLoop, migrateOne_skip f q st m e hq]
    exact ih (fun q' hq' => h q' (List.mem_cons_of_mem q hq'))

theorem migrateLoop_nofault (ps : List Principal) (st : SyncState) (m : Nat)
    (e : List String) :
    (migrateLoop noMigrateFaults ps st m e).2.2 = e ∧
    (migrateLoop noMigrateFaults ps st m e).1.auth.map Principal.uid
      = st.auth.map Principal.uid ∧
    ∀ u ∈ ps.map Principal.uid,
      (findDoc (migrateLoop noMigrateFaults ps st m e).1.fs u).isSome := by
  induction ps generalizing st m e with
  | nil => exact ⟨rfl, rfl, by simp⟩
  | cons q rest ih =>
    rcases hmo : migrateOne noMigrateFaults q st m e with ⟨st1, m1, e1⟩
    have hstep := migrateOne_nofault_step q st m e
    rw [hmo] at hstep
    obtain ⟨he1, hcov, hmap, -⟩ := hstep
    simp only [migrateLoop, hmo]
    obtain ⟨ihe, ihmap, ihcov⟩ := ih st1 m1 e1
    refine ⟨by rw [ihe]; exact he1, by rw [ihmap]; exact hmap, ?_⟩
    intro u hu
    rcases List.mem_cons.mp hu with rfl | hu'
    · exact migrateLoop_preserves_isSome _ _ _ _ _ _ hcov
    · exact ihcov u hu'

theorem migrateOne_migrated_ge (f : MigrateFaults) (q : Principal)
    (st : SyncState) (m : Nat) (e : List String) :
    m ≤ (migrateOne f q st m e).2.1 := by
  by_cases hc : (findDoc st.fs q.uid).isSome
  · rw [migrateOne_skip f q st m e hc]
  · by_cases hr : orElseStr q.roleClaim "WAITER"
        ≠ (normalizeRole (orElseStr q.roleClaim "WAITER")).getD "WAITER"
    · cases hcf : f.claimFail q.uid with
      | some msg => simp [migrateOne, migrateSet, hc, hr, hcf]
      | none =>
        cases hsf : f.setFail q.uid with
        | some msg2 => simp [migrateOne, migrateSet, hc, hr, hcf, hsf]
        | none => simp [migrateOne, migrateSet, hc, hr, hcf, hsf]
    · cases hsf : f.setFail q.uid with
      | some msg2 => simp [migrateOne, migrateSet, hc, hr, hsf]
      | none => simp [migrateOne, migrateSet, hc, hr, hsf]

theorem migrateLoop_migrated_ge (f : MigrateFaults) (ps : List Principal)
    (st : SyncState) (m : Nat) (e : List String) :
    m ≤ (migrateLoop f ps st m e).2.1 := by
  induction ps generalizing st m e with
  | nil => exact Nat.le_refl m
  | cons q rest ih =>
    rcases hmo : migrateOne f q st m e with ⟨st1, m1, e1⟩
    simp only [migrateLoop, hmo]
    have h1 : m ≤ m1 := by
      have := migrateOne_migrated_ge f q st m e
      rw [hmo] at this
      exact this
    exact Nat.le_trans h1 (ih st1 m1 e1)

theorem migrateLoop_nofault_progress (ps : List Principal) (st : SyncState)
    (m : Nat) (e : List String) (p : Principal)
    (hp : p ∈ ps) (hun : findDoc st.fs p.uid = none) :
    m < (migrateLoop noMigrateFaults ps st m e).2.1 := by
  induction ps generalizing st m e with
  | nil => cases hp
  | cons q rest ih =>
    rcases hmo : migrateOne noMigrateFaults q st m e with ⟨st1, m1, e1⟩
    simp only [migrateLoop, hmo]
    by_cases hc : (findDoc st.fs q.uid).isSome
    · rw [migrateOne_skip _ _ _ _ _ hc] at hmo
      have hst1 : st = st1 := congrArg Prod.fst hmo
      have hm1 : m = m1 := congrArg (fun x => x.2.1) hmo
      have he1 : e = e1 := congrArg (fun x => x.2.2) hmo
      subst hst1; subst hm1; subst he1
      rcases List.mem_cons.mp hp with rfl | hp'
      · rw [hun] at hc
        exact absurd hc (by simp)
      · exact ih st m e hp' hun
    · have hm1 : m1 = m + 1 := by
        have := (migrateOne_nofault_step q st m e).2.2.2 hc
        rw [hmo] at this
        exact this
      have h2 : m1 ≤ (migrateLoop noMigrateFaults rest st1 m1 e1).2.1 :=
        migrateLoop_migrated_ge _ _ _ _ _
      omega

theorem migrateLoop_creates (ps : List Principal) (st : SyncState) (m : Nat)
    (e : List String) (p : Principal)
    (hp : p ∈ ps) (hnd : (ps.map Principal.uid).Nodup)
    (hun : findDoc st.fs p.uid = none) :
    findDoc (migrateLoop noMigrateFaults ps st m e).1.fs p.uid
      = some (migRecord p
          ((normalizeRole (orElseStr p.roleClaim "WAITER")).getD "WAITER")) := by
  induction ps generalizing st m e with
  | nil => cases hp
  | cons q rest ih =>
    rcases hmo : migrateOne noMigrateFaults q st m e with ⟨st1, m1, e1⟩
    simp only [migrateLoop, hmo]
    rcases List.mem_cons.mp hp with rfl | hp'
    · have hc : ¬ (findDoc st.fs p.uid).isSome = true := by
        rw [hun]; simp
      have hfs := migrateOne_nofault_fs p st m e hc
      rw [hmo] at hfs
      have hfound : findDoc st1.fs p.uid
          = some (migRecord p
              ((normalizeRole (orElseStr p.roleClaim "WAITER")).getD "WAITER")) := by
        rw [hfs, findDoc_append, hun]
        simp [findDoc, List.find?, migRecord]
      exact migrateLoop_preserves_found _ _ _ _ _ _ _ hfound
    · have hqp : q.uid ≠ p.uid := by
        intro hqq
        have hmem : q.uid ∈ rest.map Principal.uid :=
          hqq ▸ List.mem_map_of_mem Principal.uid hp'
        exact (List.nodup_cons.mp hnd).1 hmem
      have hsh := migrateOne_fs_shape noMigrateFaults q st m e
      rw [hmo] at hsh
      have hun1 : findDoc st1.fs p.uid = none := by
        rcases hsh with hfs | ⟨x, hx, hfs⟩
        · rw [hfs]; exact hun
        · rw [hfs, findDoc_append, hun]
          have : x.uid ≠ p.uid := by rw [hx]; exact hqp
          simp [findDoc, List.find?, this]
      exact ih st1 m1 e1 hp' (List.nodup_cons.mp hnd).2 hun1

/-- C4: with no store failures and at least one principal lacking a
document record, a first run of the migrator yields `migrated > 0` and
`errors = []`, and a second run from the resulting state yields
`migrated = 0`, `errors = []` and changes nothing: every uid that
already has a document record is skipped entirely, so no duplicate
records are created. -/
theorem migrate_twice_idempotent (st : SyncState)
    (hex : ∃ p ∈ st.auth, findDoc st.fs p.uid = none) :
    0 < (migrateAuthToFirestore noMigrateFaults st).2.1 ∧
    (migrateAuthToFirestore noMigrateFaults st).2.2 = [] ∧
    migrateAuthToFirestore noMigrateFaults (migrateAuthToFirestore noMigrateFaults st).1
      = ((migrateAuthToFirestore noMigrateFaults st).1, 0, []) := by
  obtain ⟨p, hp, hun⟩ := hex
  unfold migrateAuthToFirestore
  refine ⟨migrateLoop_nofault_progress st.auth st 0 [] p hp hun,
    (migrateLoop_nofault st.auth st 0 []).1, ?_⟩
  apply migrateLoop_skip_all
  intro q hq
  apply (migrateLoop_nofault st.auth st 0 []).2.2
  rw [← (migrateLoop_nofault st.auth st 0 []).2.1]
  exact List.mem_map_of_mem Principal.uid hq

/-- Witness for C4: one principal, empty document store; the first run
migrates it, the second run is a no-op. -/
theorem migrate_twice_idempotent_witness :
    0 < (migrateAuthToFirestore noMigrateFaults
          ⟨[⟨"u1", none, none, none, false⟩], []⟩).2.1 ∧
    (migrateAuthToFirestore noMigrateFaults
        ⟨[⟨"u1", none, none, none, false⟩], []⟩).2.2 = [] ∧
    migrateAuthToFirestore noMigrateFaults
        (migrateAuthToFirestore noMigrateFaults
          ⟨[⟨"u1", none, none, none, false⟩], []⟩).1
      = ((migrateAuthToFirestore noMigrateFaults
          ⟨[⟨"u1", none, none, none, false⟩], []⟩).1, 0, []) :=
  migrate_twice_idempotent ⟨[⟨"u1", none, none, none, false⟩], []⟩ (by decide)

/-- C10: when `updateUser` (with no role supplied), `disableUser` or
`enableUser` auto-heals a missing document record for a principal with
no role claim, the created record's role is "KITCHEN", while the
migrator creates the record for such a principal with role "WAITER". -/
theorem autoheal_default_role_kitchen_vs_waiter :
    (∀ (st : SyncState) (uid : String) (p : Principal),
      findAuth st.auth uid = some p → p.roleClaim = none →
      findDoc st.fs uid = none →
      (disableUser noOpFaults st uid).1 = .ok () ∧
      ∃ r, findDoc (disableUser noOpFaults st uid).2.fs uid = some r ∧
        r.role = "KITCHEN") ∧
    (∀ (st : SyncState) (uid : String) (p : Principal),
      findAuth st.auth uid = some p → p.roleClaim = none →
      findDoc st.fs uid = none →
      (enableUser noOpFaults st uid).1 = .ok () ∧
      ∃ r, findDoc (enableUser noOpFaults st uid).2.fs uid = some r ∧
        r.role = "KITCHEN") ∧
    (∀ (st : SyncState) (uid : String) (p : Principal),
      findAuth st.auth uid = some p → p.roleClaim = none →
      findDoc st.fs uid = none →
      (updateUser noOpFaults st uid ⟨none, none⟩).1 = .ok () ∧
      ∃ r, findDoc (updateUser noOpFaults st uid ⟨none, none⟩).2.fs uid = some r ∧
        r.role = "KITCHEN") ∧
    (∀ (st : SyncState) (p : Principal),
      p ∈ st.auth → p.roleClaim = none →
      findDoc st.fs p.uid = none → (st.auth.map Principal.uid).Nodup →
      ∃ r, findDoc (migrateAuthToFirestore noMigrateFaults st).1.fs p.uid = some r ∧
        r.role = "WAITER") := by
  refine ⟨?_, ?_, ?_, ?_⟩
  · intro st uid p hfind hrc hdoc
    have hstep : disableUser noOpFaults st uid
        = (.ok (), ⟨setDisabled st.auth uid true,
            st.fs ++ [⟨uid, orElseStr p.email "", orElseStr p.displayName "",
              orElseStr p.roleClaim "KITCHEN", "inactive"⟩]⟩) := by
      simp only [disableUser, hfind, noOpFaults, hdoc]
    rw [hstep]
    refine ⟨rfl, ⟨uid, orElseStr p.email "", orElseStr p.displayName "",
      orElseStr p.roleClaim "KITCHEN", "inactive"⟩, ?_, ?_⟩
    · rw [findDoc_append, hdoc]
      simp [findDoc, List.find?]
    · rw [hrc]
      rfl
  · intro st uid p hfind hrc hdoc
    have hstep : enableUser noOpFaults st uid
        = (.ok (), ⟨setDisabled st.auth uid false,
            st.fs ++ [⟨uid, orElseStr p.email "", orElseStr p.displayName "",
              orElseStr p.roleClaim "KITCHEN", "active"⟩]⟩) := by
      simp only [enableUser, hfind, noOpFaults, hdoc]
    rw [hstep]
    refine ⟨rfl, ⟨uid, orElseStr p.email "", orElseStr p.displayName "",
      orElseStr p.roleClaim "KITCHEN", "active"⟩, ?_, ?_⟩
    · rw [findDoc_append, hdoc]
      simp [findDoc, List.find?]
    · rw [hrc]
      rfl
  · intro st uid p hfind hrc hdoc
    have hpu : p.uid = uid := by simpa using List.find?_some hfind
    have hid : applyAuthUpdate st.auth uid none none = st.auth := by
      apply list_map_id_of
      intro q hq
      by_cases h : q.uid = uid
      · obtain ⟨qu, qd, qe, qr, qb⟩ := q
        have h' : qu = uid := h
        subst h'
        simp
      · simp [h]
    have hre : findAuth (applyAuthUpdate st.auth uid none none) uid = some p := by
      rw [hid]
      exact hfind
    have hstep : updateUser noOpFaults st uid ⟨none, none⟩
        = (.ok (), ⟨applyAuthUpdate st.auth uid none none,
            st.fs ++ [⟨uid, orElseStr p.email "", orElseStr p.displayName "",
              orElseStr p.roleClaim "KITCHEN",
              if p.disabled then "inactive" else "active"⟩]⟩) := by
      simp only [updateUser, hfind, truthy, updateUserGo, noOpFaults, hdoc, hre]
    rw [hstep]
    refine ⟨rfl, ⟨uid, orElseStr p.email "", orElseStr p.displayName "",
      orElseStr p.roleClaim "KITCHEN",
      if p.disabled then "inactive" else "active"⟩, ?_, ?_⟩
    · rw [findDoc_append, hdoc]
      simp [findDoc, List.find?]
    · rw [hrc]
      rfl
  · intro st p hp hrc hdoc hnd
    refine ⟨migRecord p
      ((normalizeRole (orElseStr p.roleClaim "WAITER")).getD "WAITER"), ?_, ?_⟩
    · exact migrateLoop_creates st.auth st 0 [] p hp hnd hdoc
    · rw [hrc]
      rfl

/-- Witness for C10: the same claimless principal with no document gets
role KITCHEN from each auto-heal path and role WAITER from the
migrator. -/
theorem autoheal_default_role_witness :
    ((disableUser noOpFaults ⟨[⟨"u1", none, none, none, false⟩], []⟩ "u1").1
        = .ok () ∧
      ∃ r, findDoc (disableUser noOpFaults
            ⟨[⟨"u1", none, none, none, false⟩], []⟩ "u1").2.fs "u1" = some r ∧
        r.role = "KITCHEN") ∧
    ((enableUser noOpFaults ⟨[⟨"u1", none, none, none, false⟩], []⟩ "u1").1
        = .ok () ∧
      ∃ r, findDoc (enableUser noOpFaults
            ⟨[⟨"u1", none, none, none, false⟩], []⟩ "u1").2.fs "u1" = some r ∧
        r.role = "KITCHEN") ∧
    ((updateUser noOpFaults ⟨[⟨"u1", none, none, none, false⟩], []⟩ "u1"
          ⟨none, none⟩).1 = .ok () ∧
      ∃ r, findDoc (updateUser noOpFaults
            ⟨[⟨"u1", none, none, none, false⟩], []⟩ "u1" ⟨none, none⟩).2.fs "u1"
          = some r ∧ r.role = "KITCHEN") ∧
    (∃ r, findDoc (migrateAuthToFirestore noMigrateFaults
            ⟨[⟨"u1", none, none, none, false⟩], []⟩).1.fs "u1" = some r ∧
      r.role = "WAITER") :=
  ⟨autoheal_default_role_kitchen_vs_waiter.1
      ⟨[⟨"u1", none, none, none, false⟩], []⟩ "u1"
      ⟨"u1", none, none, none, false⟩ rfl rfl rfl,
   autoheal_default_role_kitchen_vs_waiter.2.1
      ⟨[⟨"u1", none, none, none, false⟩], []⟩ "u1"
      ⟨"u1", none, none, none, false⟩ rfl rfl rfl,
   autoheal_default_role_kitchen_vs_waiter.2.2.1
      ⟨[⟨"u1", none, none, none, false⟩], []⟩ "u1"
      ⟨"u1", none, none, none, false⟩ rfl rfl rfl,
   autoheal_default_role_kitchen_vs_waiter.2.2.2
      ⟨[⟨"u1", none, none, none, false⟩], []⟩
      ⟨"u1", none, none, none, false⟩ (by decide) rfl rfl (by decide)⟩

end DeliciousKitchen
